import Mathlib

/-
Shallow embedding of `src/msgpackrpc.py`, a msgpack-RPC client consisting of
a `Connection` class (one stream socket, blocking request/response `call`)
and a `ConnectionPool` class (bounded set of connections with blocking or
expanding acquisition).

Modelling conventions:
* Machine-level socket I/O and the msgpack codec are external collaborators;
  their outcomes are supplied as explicit oracle data (lists of per-primitive
  results), so every definition is executable.
* Python exceptions are modelled with `Except`; an operation that can block
  forever (socket loops whose oracle is exhausted, a pool `get` that waits)
  returns `Option`/a `blocked` marker instead.
* Connections owned by a pool are identified by the `Nat` order in which the
  pool opened them; Python object identity on `Connection` instances is
  identity of these ids.  The pool-side record `closedConns` lists the ids of
  connections whose `close()` has run (so `is_connected()` is false exactly
  for ids in that list).
-/

/-- Values of the serialization format (msgpack), as far as the client ever
inspects them: nil, booleans, integers, strings and arrays. -/
inductive MVal
  | nil
  | b (x : Bool)
  | int (n : Int)
  | str (s : String)
  | arr (xs : List MVal)

/-- Errors: the exception hierarchy of `msgpackrpc.py` together with the
Python builtin errors its code can raise (`ValueError` from `list.remove`
and from tuple unpacking, `TypeError` from unpacking a non-sequence). -/
inductive RpcErr
  | connectionError (msg : String)
  | connectionTimeout (msg : String)
  | protocolError (msg : String)
  | serializationError (msg : String)
  | responseError (payload : MVal)
  | valueError (msg : String)
  | typeError (msg : String)

/-- Outcome of one failing OS socket primitive: `socket.timeout` or any
other `socket.error`. -/
inductive SockErr
  | timeout (msg : String)
  | error (msg : String)

/-- The two `except` clauses shared by `_write_message` and `_read_message`:
`socket.timeout` becomes `ConnectionTimeout`, other `socket.error`s become
`ConnectionError`. -/
def sockErrToRpc : SockErr → RpcErr
  | .timeout m => .connectionTimeout m
  | .error m => .connectionError m

/-- State of a `Connection`: `_socket` (`None` when disconnected, otherwise
an abstract handle) and `_next_msgid` (initialised to 0 by `__init__`).
Host, port, timeouts and the codec objects are immutable configuration and
are omitted. -/
structure Connection where
  socket : Option Nat
  nextMsgid : Nat

/-- A freshly constructed `Connection`: `_socket = None`, `_next_msgid = 0`. -/
def Connection.initial : Connection := ⟨none, 0⟩

/-- `Connection.is_connected`: `self._socket is not None`. -/
def Connection.isConnected (c : Connection) : Bool := c.socket.isSome

/-- `Connection.close`: returns unchanged when already disconnected, else
closes the socket (errors swallowed) and sets `_socket = None`. -/
def Connection.close (c : Connection) : Connection :=
  if c.isConnected then { c with socket := none } else c

/-- `Connection._get_next_msgid`: increments `_next_msgid` and returns it. -/
def Connection.getNextMsgid (c : Connection) : Connection × Nat :=
  ({ c with nextMsgid := c.nextMsgid + 1 }, c.nextMsgid + 1)

/-- `Connection.connect`: raises `ConnectionError` when already connected;
otherwise `socket.create_connection` either yields a handle, times out
(`ConnectionTimeout`) or fails (`ConnectionError`), leaving `_socket = None`
on failure.  `_next_msgid` is never touched. -/
def Connection.connectOp (c : Connection) (outcome : Except SockErr Nat) :
    Connection × Except RpcErr Unit :=
  if c.isConnected then (c, .error (.connectionError "Already connected"))
  else
    match outcome with
    | .ok h => ({ c with socket := some h }, .ok ())
    | .error (.timeout m) => (c, .error (.connectionTimeout m))
    | .error (.error m) => (c, .error (.connectionError m))

/-- The send loop of `_write_message`:
`while sent < length: sent += self._socket.send(data[sent:])`.
`sends` is the oracle of successive `socket.send` outcomes (bytes accepted,
or a raised socket error).  Result: `none` when the oracle is exhausted with
bytes still unsent (the call would block), otherwise the total sent together
with the socket error that aborted the loop, if any. -/
def sendLoop (len : Nat) : Nat → List (Except SockErr Nat) → Option (Nat × Option SockErr)
  | sent, [] => if sent < len then none else some (sent, none)
  | sent, r :: rest =>
    if sent < len then
      match r with
      | .ok n => sendLoop len (sent + n) rest
      | .error e => some (sent, some e)
    else some (sent, none)

/-- Result of `_write_message`: the connection afterwards, the number of
bytes handed to `socket.send`, and the Python-level outcome. -/
structure WriteOut where
  conn : Connection
  sent : Nat
  result : Except RpcErr Unit

/-- `Connection._write_message`.  `packResult` is the oracle for
`self._packer.pack(message)`: the length of the packed bytes, or the message
of the exception it raised (which becomes `SerializationError` before any
byte is sent).  A socket error during the send loop closes the connection
and then propagates mapped through `sockErrToRpc`. -/
def Connection.writeMessage (c : Connection) (packResult : Except String Nat)
    (sends : List (Except SockErr Nat)) : Option WriteOut :=
  match packResult with
  | .error e => some ⟨c, 0, .error (.serializationError ("Serialization failed: " ++ e))⟩
  | .ok len =>
    match sendLoop len 0 sends with
    | none => none
    | some (sent, none) => some ⟨c, sent, .ok ()⟩
    | some (sent, some e) => some ⟨c.close, sent, .error (sockErrToRpc e)⟩

/-- The receive loop of `_read_message`: each oracle entry is one
`socket.recv` outcome, `.ok ms` meaning the chunk was fed to the unpacker
which then had the complete messages `ms` available.  The loop returns the
first completed message, or the first socket error; `none` when the oracle
runs out first (the call would block). -/
def readLoop : List (Except SockErr (List MVal)) → Option (Except SockErr MVal)
  | [] => none
  | .error e :: _ => some (.error e)
  | .ok ms :: rest =>
    match ms with
    | [] => readLoop rest
    | m :: _ => some (.ok m)

/-- `Connection._read_message`: a socket error closes the connection and
propagates mapped through `sockErrToRpc`. -/
def Connection.readMessage (c : Connection) (recvs : List (Except SockErr (List MVal))) :
    Option (Connection × Except RpcErr MVal) :=
  match readLoop recvs with
  | none => none
  | some (.ok m) => some (c, .ok m)
  | some (.error e) => some (c.close, .error (sockErrToRpc e))

/-- Python tuple unpacking `msgtype, recvd_msgid, error, result = response`:
a 4-element sequence unpacks; a sequence of another length raises
`ValueError`, which `call` turns into `ProtocolError`; a 4-character string
unpacks into its characters; a non-iterable raises `TypeError` (uncaught in
the source, modelled as such). -/
def unpack4 : MVal → Except RpcErr (MVal × MVal × MVal × MVal)
  | .arr [a, b, c, d] => .ok (a, b, c, d)
  | .arr _ => .error (.protocolError "Invalid response")
  | .str ⟨[a, b, c, d]⟩ => .ok (.str ⟨[a]⟩, .str ⟨[b]⟩, .str ⟨[c]⟩, .str ⟨[d]⟩)
  | .str _ => .error (.protocolError "Invalid response")
  | _ => .error (.typeError "cannot unpack non-sequence")

/-- Python `msgid != recvd_msgid` where `msgid` is an int: true equality only
when the received value is an equal integer. -/
def MVal.eqInt : MVal → Nat → Bool
  | .int n, m => n == (m : Int)
  | _, _ => false

/-- Python `error is not None`, negated: the decoded value is msgpack nil. -/
def MVal.isNil : MVal → Bool
  | .nil => true
  | _ => false

/-- The response-validation tail of `Connection.call` (lines unpacking the
response, checking the msgid, raising `ResponseError` on a non-null error
field and returning the result field otherwise). -/
def processResponse (msgid : Nat) (resp : MVal) : Except RpcErr MVal :=
  match unpack4 resp with
  | .error e => .error e
  | .ok (_, recvdMsgid, err, result) =>
    if !(recvdMsgid.eqInt msgid) then
      .error (.protocolError "Invalid response: received msgid doesn't match")
    else if !err.isNil then .error (.responseError err)
    else .ok result

/-- Oracle for one `call`: the packer outcome and the socket send/recv
outcomes. -/
structure CallOracle where
  packResult : Except String Nat
  sends : List (Except SockErr Nat)
  recvs : List (Except SockErr (List MVal))

/-- Result of one `call`: the connection afterwards, bytes sent, the msgid
allocated (none when the not-connected check fired before allocation), and
the returned value or raised error. -/
structure CallOut where
  conn : Connection
  sent : Nat
  msgidUsed : Option Nat
  result : Except RpcErr MVal

/-- Body of `Connection.call` after the msgid was allocated: write the
request, read one response, validate it.  `none` models blocking forever
inside a socket loop. -/
def Connection.callAux (c : Connection) (msgid : Nat) (o : CallOracle) : Option CallOut :=
  match c.writeMessage o.packResult o.sends with
  | none => none
  | some w =>
    match w.result with
    | .error e => some ⟨w.conn, w.sent, some msgid, .error e⟩
    | .ok _ =>
      match w.conn.readMessage o.recvs with
      | none => none
      | some (c2, .error e) => some ⟨c2, w.sent, some msgid, .error e⟩
      | some (c2, .ok resp) => some ⟨c2, w.sent, some msgid, processResponse msgid resp⟩

/-- `Connection.call`: raises `ConnectionError` when not connected (before
allocating a msgid), otherwise allocates `msgid = ++_next_msgid` and runs
the write/read/validate body. -/
def Connection.call (c : Connection) (o : CallOracle) : Option CallOut :=
  if c.isConnected then
    Connection.callAux { c with nextMsgid := c.nextMsgid + 1 } (c.nextMsgid + 1) o
  else some ⟨c, 0, none, .error (.connectionError "Not connected")⟩

/-- One operation applied to a `Connection` by its user. -/
inductive ConnOp
  | connect (outcome : Except SockErr Nat)
  | close
  | call (o : CallOracle)

/-- Run a sequence of operations on a connection, collecting the msgids
allocated by the `call`s in order.  A `call` whose socket loop blocks
forever (oracle exhausted) had already allocated its msgid and ends the
trace there. -/
def runConn : Connection → List ConnOp → Connection × List Nat
  | c, [] => (c, [])
  | c, .connect outcome :: rest => runConn (c.connectOp outcome).1 rest
  | c, .close :: rest => runConn c.close rest
  | c, .call o :: rest =>
    match c.call o with
    | some out =>
      let r := runConn out.conn rest
      (r.1, out.msgidUsed.toList ++ r.2)
    | none => ({ c with nextMsgid := c.nextMsgid + 1 }, [c.nextMsgid + 1])

/-- State of a `ConnectionPool`.  `maxSize` and `expanding` are the
immutable `self.max_size` and `self.expanding`; `pool` is `self._pool` (the
owned set, in list order), `queue` is `self._conn_queue` (a deque written
left to right, `appendleft` prepending and `pop` taking the rightmost),
`connected` is `self._connected`, `nextConnId` generates ids for newly
opened connections, and `closedConns` records ids whose `Connection.close`
has run. -/
structure ConnectionPool where
  maxSize : Nat
  expanding : Bool
  pool : List Nat
  queue : List Nat
  connected : Bool
  nextConnId : Nat
  closedConns : List Nat

/-- The `size` property: `len(self._pool)`. -/
def ConnectionPool.size (s : ConnectionPool) : Nat := s.pool.length

/-- The `enqueued` property: `len(self._conn_queue)`. -/
def ConnectionPool.enqueued (s : ConnectionPool) : Nat := s.queue.length

/-- A lazily constructed pool: `_pool` and `_conn_queue` empty,
`_connected = True`. -/
def ConnectionPool.initial (size : Nat) (expanding : Bool) : ConnectionPool :=
  ⟨size, expanding, [], [], true, 0, []⟩

/-- `conn.is_connected()` for a pool-owned connection id. -/
def ConnectionPool.connAlive (s : ConnectionPool) (cId : Nat) : Bool :=
  !(s.closedConns.contains cId)

/-- Outcome of `ConnectionPool.get`: a connection id, a raised error, or the
caller suspending on the condition variable. -/
inductive GetOutcome
  | got (cId : Nat)
  | raised (e : RpcErr)
  | blocked

/-- `ConnectionPool._open_connection`: the retry loop either eventually
connects (oracle `ok = true`), appends the new connection to `self._pool`
and returns it, or exhausts its attempts and re-raises the last
`ConnectionError` with `self._pool` unchanged. -/
def ConnectionPool.openConnection (s : ConnectionPool) (ok : Bool) :
    ConnectionPool × GetOutcome :=
  if ok then
    ({ s with pool := s.pool ++ [s.nextConnId], nextConnId := s.nextConnId + 1 },
     .got s.nextConnId)
  else (s, .raised (.connectionError "connect failed"))

/-- Python `list.remove`: drop the first occurrence, or signal failure when
the element is absent (Python raises `ValueError`). -/
def removeFirst (x : Nat) : List Nat → Option (List Nat)
  | [] => none
  | y :: ys => if y = x then some ys else (removeFirst x ys).map (fun l => y :: l)

/-- `ConnectionPool._destroy_connnection`: close the connection, then
`self._pool.remove(conn)`, which raises `ValueError` when the connection is
not in `_pool`. -/
def ConnectionPool.destroyConnnection (s : ConnectionPool) (cId : Nat) :
    ConnectionPool × Except RpcErr Unit :=
  match removeFirst cId s.pool with
  | some pool1 => ({ s with closedConns := cId :: s.closedConns, pool := pool1 }, .ok ())
  | none => ({ s with closedConns := cId :: s.closedConns },
             .error (.valueError "list.remove(x): x not in list"))

/-- The liveness check at the end of `get`: a dead connection is destroyed
and transparently replaced by `_open_connection` (whose retry outcome is the
`reopenOk` oracle); errors from either step propagate. -/
def ConnectionPool.checkLive (s : ConnectionPool) (cId : Nat) (reopenOk : Bool) :
    ConnectionPool × GetOutcome :=
  if s.connAlive cId then (s, .got cId)
  else
    match s.destroyConnnection cId with
    | (s1, .ok _) => s1.openConnection reopenOk
    | (s1, .error e) => (s1, .raised e)

/-- `ConnectionPool.get`.  `openOk` and `reopenOk` are the retry-loop oracles
for the up to two `_open_connection` calls a single `get` can make.  In
blocking mode with an empty queue the caller suspends (`blocked`); the
resumption of a suspended caller is modelled separately by `wakeStep`. -/
def ConnectionPool.get (s : ConnectionPool) (openOk reopenOk : Bool) :
    ConnectionPool × GetOutcome :=
  if !s.connected then (s, .raised (.connectionError "Not connected"))
  else if s.size < s.maxSize then s.openConnection openOk
  else if s.expanding then
    match s.queue.getLast? with
    | none =>
      match s.openConnection openOk with
      | (s1, .got cId) => s1.checkLive cId reopenOk
      | (s1, r) => (s1, r)
    | some cId => ConnectionPool.checkLive { s with queue := s.queue.dropLast } cId reopenOk
  else
    match s.queue.getLast? with
    | none => (s, .blocked)
    | some cId => ConnectionPool.checkLive { s with queue := s.queue.dropLast } cId reopenOk

/-- `ConnectionPool.put`: on a closed pool, destroy the connection; else
when `self.enqueued < self.size`, `appendleft` it onto the deque and notify
one waiter; else destroy it. -/
def ConnectionPool.put (s : ConnectionPool) (cId : Nat) :
    ConnectionPool × Except RpcErr Unit :=
  if !s.connected then s.destroyConnnection cId
  else if s.enqueued < s.size then
    ({ s with queue := cId :: s.queue }, .ok ())
  else s.destroyConnnection cId

/-- The loop `while self.size > 0: self._destroy_connnection(self._pool[0])`
of `close`: every owned connection is closed and removed from `_pool`. -/
def drainPool : List Nat → List Nat → List Nat
  | [], closed => closed
  | cId :: rest, closed => drainPool rest (cId :: closed)

/-- `ConnectionPool.close`: clear the deque, destroy every owned connection,
set `_connected = False`, and `notify_all` the condition (every suspended
`get` is woken; what a woken waiter then does is `wakeStep`). -/
def ConnectionPool.close (s : ConnectionPool) : ConnectionPool :=
  { s with
    queue := []
    pool := []
    closedConns := drainPool s.pool s.closedConns
    connected := false }

/-- What a waiter suspended inside `get` observes on one wakeup. -/
inductive WakeOutcome
  | popConn (cId : Nat)
  | raiseErr (e : RpcErr)
  | waitAgain

/-- One iteration of the wait loop of blocking `get` as re-executed by a
woken waiter: with the queue still empty it raises `ConnectionError` when
the pool is no longer connected and otherwise waits again; with a non-empty
queue it pops the rightmost connection. -/
def ConnectionPool.wakeStep (s : ConnectionPool) : WakeOutcome :=
  match s.queue.getLast? with
  | some cId => .popConn cId
  | none =>
    if !s.connected then .raiseErr (.connectionError "Not connected")
    else .waitAgain

/-- An external close of an owned connection (the caller using it hit an I/O
error, or closed it): the socket dies but the pool records are untouched.
Only an id the pool has actually handed out can die. -/
def ConnectionPool.kill (s : ConnectionPool) (cId : Nat) : ConnectionPool :=
  if cId < s.nextConnId then { s with closedConns := cId :: s.closedConns } else s

/-- One pool operation by some caller.  `wake` is a waiter suspended inside
blocking `get` being woken and re-running the tail of `get` (pop rightmost,
liveness check) when the queue is non-empty; with the queue still empty it
either raises or waits on, leaving the state unchanged either way. -/
inductive PoolOp
  | acquire (openOk reopenOk : Bool)
  | release (cId : Nat)
  | closeAll
  | kill (cId : Nat)
  | wake (reopenOk : Bool)

/-- Apply one pool operation, keeping only the state. -/
def ConnectionPool.applyOp (s : ConnectionPool) : PoolOp → ConnectionPool
  | .acquire a b => (s.get a b).1
  | .release cId => (s.put cId).1
  | .closeAll => s.close
  | .kill cId => s.kill cId
  | .wake b =>
    match s.queue.getLast? with
    | none => s
    | some cId => (ConnectionPool.checkLive { s with queue := s.queue.dropLast } cId b).1

/-- Run a sequence of pool operations. -/
def runPool (s : ConnectionPool) : List PoolOp → ConnectionPool
  | [] => s
  | op :: rest => runPool (s.applyOp op) rest

/-- Removing an element that is present shortens the list by exactly one. -/
theorem removeFirst_length (x : Nat) :
    ∀ l l' : List Nat, removeFirst x l = some l' → l'.length + 1 = l.length := by
  intro l
  induction l with
  | nil => intro l' h; simp [removeFirst] at h
  | cons y ys ih =>
    intro l' h
    simp only [removeFirst] at h
    split at h
    · simp only [Option.some.injEq] at h
      subst h
      rfl
    · cases hm : removeFirst x ys with
      | none => rw [hm] at h; simp at h
      | some l2 =>
        rw [hm] at h
        simp only [Option.map_some', Option.some.injEq] at h
        subst h
        have := ih l2 hm
        simp only [List.length_cons]
        omega

/-- `_destroy_connnection` never touches configuration or liveness flags and
never grows `_pool`. -/
theorem destroy_spec (s : ConnectionPool) (cId : Nat) :
    (s.destroyConnnection cId).1.maxSize = s.maxSize ∧
    (s.destroyConnnection cId).1.expanding = s.expanding ∧
    (s.destroyConnnection cId).1.connected = s.connected ∧
    (s.destroyConnnection cId).1.pool.length ≤ s.pool.length := by
  unfold ConnectionPool.destroyConnnection
  cases hm : removeFirst cId s.pool with
  | none => simp
  | some pool1 =>
    have := removeFirst_length cId s.pool pool1 hm
    simp
    omega

/-- `_open_connection` never touches configuration or liveness flags and
grows `_pool` by at most one. -/
theorem open_spec (s : ConnectionPool) (ok : Bool) :
    (s.openConnection ok).1.maxSize = s.maxSize ∧
    (s.openConnection ok).1.expanding = s.expanding ∧
    (s.openConnection ok).1.connected = s.connected ∧
    (s.openConnection ok).1.pool.length ≤ s.pool.length + 1 := by
  unfold ConnectionPool.openConnection
  cases ok <;> simp

/-- The liveness check of `get` (destroy a dead connection, open a
replacement) never touches configuration or the connected flag and never
grows `_pool`. -/
theorem checkLive_spec (s : ConnectionPool) (cId : Nat) (ro : Bool) :
    (s.checkLive cId ro).1.maxSize = s.maxSize ∧
    (s.checkLive cId ro).1.expanding = s.expanding ∧
    (s.checkLive cId ro).1.connected = s.connected ∧
    (s.checkLive cId ro).1.pool.length ≤ s.pool.length := by
  unfold ConnectionPool.checkLive ConnectionPool.destroyConnnection
  cases halive : s.connAlive cId with
  | true => simp [halive]
  | false =>
    cases hm : removeFirst cId s.pool with
    | none => simp [halive, hm]
    | some pool1 =>
      have hlen := removeFirst_length cId s.pool pool1 hm
      have hos := open_spec { s with closedConns := cId :: s.closedConns, pool := pool1 } ro
      simp only at hos
      simp only [halive, hm, Bool.false_eq_true, if_false]
      exact ⟨hos.1, hos.2.1, hos.2.2.1, by omega⟩

/-- One `get` in blocking mode keeps `|_pool|` at or under `max_size`
whenever it was, and preserves the configuration. -/
theorem get_spec (s : ConnectionPool) (a b : Bool) (hexp : s.expanding = false)
    (hlen : s.pool.length ≤ s.maxSize) :
    (s.get a b).1.maxSize = s.maxSize ∧
    (s.get a b).1.expanding = false ∧
    (s.get a b).1.pool.length ≤ s.maxSize := by
  obtain ⟨m, ex, p, q, conn, n, cl⟩ := s
  simp only at hexp hlen ⊢
  subst hexp
  unfold ConnectionPool.get ConnectionPool.size
  cases conn with
  | false => simpa using hlen
  | true =>
    simp only [Bool.not_true, Bool.false_eq_true, if_false]
    by_cases hsz : p.length < m
    · simp only [hsz, if_true]
      have := open_spec ⟨m, false, p, q, true, n, cl⟩ a
      dsimp only at this
      exact ⟨this.1, this.2.1, by omega⟩
    · simp only [hsz, if_false, Bool.false_eq_true]
      cases hq : q.getLast? with
      | none => simpa using hlen
      | some cId =>
        dsimp only
        have := checkLive_spec ⟨m, false, p, q.dropLast, true, n, cl⟩ cId b
        dsimp only at this
        exact ⟨this.1, this.2.1, by omega⟩

/-- One `put` keeps `|_pool|` at or under `max_size` whenever it was, and
preserves the configuration. -/
theorem put_spec (s : ConnectionPool) (cId : Nat) (hlen : s.pool.length ≤ s.maxSize) :
    (s.put cId).1.maxSize = s.maxSize ∧
    (s.put cId).1.expanding = s.expanding ∧
    (s.put cId).1.pool.length ≤ s.maxSize := by
  have hd := destroy_spec s cId
  unfold ConnectionPool.put
  cases hc : s.connected with
  | false =>
    simp only [Bool.not_false, if_true]
    exact ⟨hd.1, hd.2.1, by omega⟩
  | true =>
    simp only [Bool.not_true, Bool.false_eq_true, if_false]
    by_cases he : s.enqueued < s.size
    · simp only [he, if_true]
      simpa using hlen
    · simp only [he, if_false]
      exact ⟨hd.1, hd.2.1, by omega⟩

/-- Every single pool operation keeps `|_pool| ≤ max_size` in blocking mode
and preserves the configuration. -/
theorem applyOp_spec (s : ConnectionPool) (op : PoolOp) (hexp : s.expanding = false)
    (hlen : s.pool.length ≤ s.maxSize) :
    (s.applyOp op).maxSize = s.maxSize ∧
    (s.applyOp op).expanding = false ∧
    (s.applyOp op).pool.length ≤ s.maxSize := by
  cases op with
  | acquire a b => exact get_spec s a b hexp hlen
  | release cId =>
    have := put_spec s cId hlen
    exact ⟨this.1, this.2.1.trans hexp, this.2.2⟩
  | closeAll => exact ⟨rfl, hexp, by simp [ConnectionPool.applyOp, ConnectionPool.close]⟩
  | kill cId =>
    simp only [ConnectionPool.applyOp, ConnectionPool.kill]
    split
    · exact ⟨rfl, hexp, hlen⟩
    · exact ⟨rfl, hexp, hlen⟩
  | wake b =>
    simp only [ConnectionPool.applyOp]
    cases hq : s.queue.getLast? with
    | none => exact ⟨rfl, hexp, hlen⟩
    | some cId =>
      dsimp only
      have := checkLive_spec { s with queue := s.queue.dropLast } cId b
      simp only at this
      exact ⟨this.1, this.2.1.trans hexp, by omega⟩

/-- Any operation sequence from a state within capacity stays within
capacity, in blocking mode. -/
theorem runPool_bound (ops : List PoolOp) :
    ∀ s : ConnectionPool, s.expanding = false → s.pool.length ≤ s.maxSize →
    (runPool s ops).maxSize = s.maxSize ∧ (runPool s ops).pool.length ≤ s.maxSize := by
  induction ops with
  | nil => intro s _ hlen; exact ⟨rfl, hlen⟩
  | cons op rest ih =>
    intro s hexp hlen
    have hstep := applyOp_spec s op hexp hlen
    have htail := ih (s.applyOp op) hstep.2.1 (by omega)
    simp only [runPool]
    exact ⟨by omega, by omega⟩

/-- C2: for every sequence of pool operations on a pool constructed with
`max_size = N` in blocking (non-expanding) mode — acquisitions, releases
(including double releases), wakes of blocked waiters, external connection
deaths and `close` — the owned set `_pool` never holds more than N
connections. -/
theorem C2_thm (N : Nat) (ops : List PoolOp) :
    (runPool (ConnectionPool.initial N false) ops).pool.length ≤ N := by
  have := runPool_bound ops (ConnectionPool.initial N false) rfl (Nat.zero_le N)
  simpa [ConnectionPool.initial] using this.2

/-- C1 counterexample: pool with `max_size = 1` in expanding mode; `conn 0`
is acquired (saturating the pool), then a second acquire opens overflow
`conn 1`, then `conn 1` is released.  Outcome: the overflow connection was
appended to `_pool` (`_pool = [0, 1]`, so it does count toward `owned_set`),
and its release enqueued it into the idle queue (`_conn_queue = [1]`)
instead of destroying it (no connection was closed). -/
theorem C1_counterexample :
    (runPool (ConnectionPool.initial 1 true)
      [.acquire true true, .acquire true true, .release 1]).queue = [1] ∧
    (runPool (ConnectionPool.initial 1 true)
      [.acquire true true, .acquire true true, .release 1]).pool = [0, 1] ∧
    (runPool (ConnectionPool.initial 1 true)
      [.acquire true true, .acquire true true, .release 1]).closedConns = [] :=
  ⟨rfl, rfl, rfl⟩

/-- C1 (amended): in expanding mode, `get` on a saturated pool with an empty
idle queue immediately opens a fresh overflow connection and returns it, but
that connection is appended to `_pool` (so `|owned_set|` exceeds
`max_size`), and a subsequent `put` of it enqueues it into the idle queue —
persisting it — because `enqueued < size` holds; it is not destroyed. -/
theorem C1_thm (s : ConnectionPool) (ro : Bool)
    (hconn : s.connected = true) (hexp : s.expanding = true)
    (hsat : s.maxSize ≤ s.pool.length) (hidle : s.queue = [])
    (hfresh : s.closedConns.contains s.nextConnId = false) :
    s.get true ro =
      ({ s with pool := s.pool ++ [s.nextConnId], nextConnId := s.nextConnId + 1 },
       .got s.nextConnId) ∧
    ConnectionPool.put
        { s with pool := s.pool ++ [s.nextConnId], nextConnId := s.nextConnId + 1 }
        s.nextConnId =
      ({ s with pool := s.pool ++ [s.nextConnId], nextConnId := s.nextConnId + 1,
                queue := [s.nextConnId] },
       .ok ()) ∧
    s.maxSize < (s.pool ++ [s.nextConnId]).length := by
  obtain ⟨m, ex, p, q, conn, n, cl⟩ := s
  simp only at hconn hexp hsat hidle hfresh ⊢
  subst hconn; subst hexp; subst hidle
  have hnm : n ∉ cl := by simpa using hfresh
  refine ⟨?_, ?_, ?_⟩
  · unfold ConnectionPool.get ConnectionPool.size ConnectionPool.checkLive
      ConnectionPool.openConnection ConnectionPool.connAlive
    simp [Nat.not_lt.mpr hsat, hnm]
  · unfold ConnectionPool.put ConnectionPool.enqueued ConnectionPool.size
    simp
  · simp
    omega

/-- C1 witness: the amended statement applied to the concrete saturated
expanding pool of the counterexample run. -/
theorem C1_witness :
    ConnectionPool.get ⟨1, true, [0], [], true, 1, []⟩ true true =
      (⟨1, true, [0, 1], [], true, 2, []⟩, .got 1) ∧
    ConnectionPool.put ⟨1, true, [0, 1], [], true, 2, []⟩ 1 =
      (⟨1, true, [0, 1], [1], true, 2, []⟩, .ok ()) ∧
    (1 : Nat) < ([0] ++ [1] : List Nat).length :=
  C1_thm ⟨1, true, [0], [], true, 1, []⟩ true rfl rfl (by decide) rfl rfl

/-- C3 counterexample: blocking pool with `max_size = 2`; connections 0 and
1 are acquired, then released in the order 0 first, 1 second.  The next
`get` returns connection 0 — the first-released one — not connection 1, the
most recently released: the deque is used `appendleft`/`pop`, i.e. FIFO. -/
theorem C3_counterexample :
    ((runPool (ConnectionPool.initial 2 false)
        [.acquire true true, .acquire true true, .release 0, .release 1]).get true true).2
      = .got 0 ∧ GetOutcome.got 0 ≠ GetOutcome.got 1 :=
  ⟨rfl, by simp⟩

/-- C3 (amended): when `get` takes a connection from a non-empty idle queue
of a pool at capacity, it pops the LEAST recently released connection
first: releasing `c1` then `c2` into an empty idle queue and acquiring next
yields `c1` (the deque is `appendleft` on release and `pop` from the
opposite end on acquire, i.e. FIFO order). -/
theorem C3_thm (s : ConnectionPool) (c1 c2 : Nat) (a b : Bool)
    (hconn : s.connected = true) (hexp : s.expanding = false)
    (hsat : s.maxSize ≤ s.pool.length) (h2 : 2 ≤ s.pool.length)
    (hidle : s.queue = []) (halive : s.closedConns.contains c1 = false) :
    (s.put c1).1 = { s with queue := [c1] } ∧
    ((s.put c1).1.put c2).1 = { s with queue := [c2, c1] } ∧
    ConnectionPool.get ((s.put c1).1.put c2).1 a b =
      ({ s with queue := [c2] }, .got c1) := by
  obtain ⟨m, ex, p, q, conn, n, cl⟩ := s
  simp only at hconn hexp hsat h2 hidle halive ⊢
  subst hconn; subst hexp; subst hidle
  have hc1 : c1 ∉ cl := by simpa using halive
  have hl0 : (0 : Nat) < p.length := by omega
  have hl1 : (1 : Nat) < p.length := by omega
  have hput1 : (ConnectionPool.put ⟨m, false, p, [], true, n, cl⟩ c1).1
      = ⟨m, false, p, [c1], true, n, cl⟩ := by
    unfold ConnectionPool.put ConnectionPool.enqueued ConnectionPool.size
    simp [hl0]
  have hput2 : (ConnectionPool.put ⟨m, false, p, [c1], true, n, cl⟩ c2).1
      = ⟨m, false, p, [c2, c1], true, n, cl⟩ := by
    unfold ConnectionPool.put ConnectionPool.enqueued ConnectionPool.size
    simp [hl1]
  refine ⟨hput1, ?_, ?_⟩
  · rw [hput1, hput2]
  · rw [hput1, hput2]
    unfold ConnectionPool.get ConnectionPool.size ConnectionPool.checkLive
      ConnectionPool.connAlive
    simp [Nat.not_lt.mpr hsat, hc1]

/-- C3 witness: the amended statement applied to a concrete capacity-2
blocking pool with both connections checked out. -/
theorem C3_witness :
    (ConnectionPool.put ⟨2, false, [0, 1], [], true, 2, []⟩ 0).1
      = ⟨2, false, [0, 1], [0], true, 2, []⟩ ∧
    ((ConnectionPool.put ⟨2, false, [0, 1], [], true, 2, []⟩ 0).1.put 1).1
      = ⟨2, false, [0, 1], [1, 0], true, 2, []⟩ ∧
    ConnectionPool.get
        ((ConnectionPool.put ⟨2, false, [0, 1], [], true, 2, []⟩ 0).1.put 1).1 true true
      = (⟨2, false, [0, 1], [1], true, 2, []⟩, .got 0) :=
  C3_thm ⟨2, false, [0, 1], [], true, 2, []⟩ 0 1 true true rfl rfl
    (by decide) (by decide) rfl rfl

/-- C4: the code slip.  A blocking pool with `max_size = 1` has connection 0
checked out when `close()` runs; `close` empties `_pool`.  The subsequent
`put` of connection 0 reaches `_destroy_connnection`, whose
`self._pool.remove(conn)` raises `ValueError` because `_pool` is empty —
`put` does close the connection but does NOT return without raising. -/
theorem C4_bug_eval :
    ((runPool (ConnectionPool.initial 1 false) [.acquire true true, .closeAll]).put 0).2
      = .error (.valueError "list.remove(x): x not in list") ∧
    (runPool (ConnectionPool.initial 1 false) [.acquire true true, .closeAll]).connected
      = false ∧
    ((runPool (ConnectionPool.initial 1 false) [.acquire true true, .closeAll]).put 0).1.connAlive 0
      = false :=
  ⟨rfl, rfl, rfl⟩

/-- A closed pool stays closed with an empty idle queue under every further
operation: no later acquire, release, kill, wake or close can reconnect it
or enqueue anything. -/
theorem closed_stays_closed (op : PoolOp) (s : ConnectionPool)
    (hc : s.connected = false) (hq : s.queue = []) :
    (s.applyOp op).connected = false ∧ (s.applyOp op).queue = [] := by
  cases op with
  | acquire a b =>
    simp only [ConnectionPool.applyOp]
    unfold ConnectionPool.get
    simp [hc, hq]
  | release cId =>
    simp only [ConnectionPool.applyOp]
    unfold ConnectionPool.put ConnectionPool.destroyConnnection
    cases hm : removeFirst cId s.pool <;> simp [hc, hq, hm]
  | closeAll => exact ⟨rfl, rfl⟩
  | kill cId =>
    simp only [ConnectionPool.applyOp]
    unfold ConnectionPool.kill
    split <;> simp [hc, hq]
  | wake b =>
    simp only [ConnectionPool.applyOp]
    rw [hq]
    exact ⟨hc, hq⟩

/-- Closedness and queue emptiness persist along any operation sequence. -/
theorem runPool_closed (ops : List PoolOp) : ∀ s : ConnectionPool,
    s.connected = false → s.queue = [] →
    (runPool s ops).connected = false ∧ (runPool s ops).queue = [] := by
  induction ops with
  | nil => intro s hc hq; exact ⟨hc, hq⟩
  | cons op rest ih =>
    intro s hc hq
    have h := closed_stays_closed op s hc hq
    simp only [runPool]
    exact ih _ h.1 h.2

/-- C5: `close()` wakes every suspended `get` waiter (`notify_all`), and
however many further pool operations run before a given waiter actually
resumes, the pool stays closed with an empty queue, so the waiter
re-running its wait-loop iteration immediately raises `ConnectionError`
rather than popping a connection or waiting again: no acquire that entered
before `close` can keep blocking past it. -/
theorem C5_thm (s : ConnectionPool) (ops : List PoolOp) :
    (runPool s.close ops).connected = false ∧
    (runPool s.close ops).queue = [] ∧
    (runPool s.close ops).wakeStep = .raiseErr (.connectionError "Not connected") := by
  have h := runPool_closed ops s.close rfl rfl
  refine ⟨h.1, h.2, ?_⟩
  unfold ConnectionPool.wakeStep
  rw [h.2, h.1]
  rfl

/-- Draining the owned list on `close` records every drained connection id
as closed (and keeps everything already recorded). -/
theorem mem_drainPool (x : Nat) : ∀ (pool closed : List Nat),
    x ∈ pool ∨ x ∈ closed → x ∈ drainPool pool closed := by
  intro pool
  induction pool with
  | nil =>
    intro closed h
    rcases h with h | h
    · simp at h
    · simpa [drainPool] using h
  | cons c rest ih =>
    intro closed h
    simp only [drainPool]
    apply ih
    rcases h with h | h
    · rcases List.mem_cons.mp h with h | h
      · right
        simp [h]
      · left
        exact h
    · right
      exact List.mem_cons_of_mem c h

/-- C10: `close()` destroys every connection registered in `_pool`, idle or
checked out: afterwards `_pool` is empty and every id that was in `_pool`
has had its `Connection.close` run (`is_connected` false) and is no longer
owned — even if a caller still holds it. -/
theorem C10_thm (s : ConnectionPool) :
    s.close.pool = [] ∧ s.close.queue = [] ∧ s.close.connected = false ∧
    ∀ cId, cId ∈ s.pool → s.close.connAlive cId = false ∧ cId ∉ s.close.pool := by
  refine ⟨rfl, rfl, rfl, ?_⟩
  intro cId h
  constructor
  · have hmem : cId ∈ drainPool s.pool s.closedConns :=
      mem_drainPool cId s.pool s.closedConns (Or.inl h)
    simp [ConnectionPool.connAlive, ConnectionPool.close, hmem]
  · simp [ConnectionPool.close]

/-- C10 witness: a pool owning connection 7, currently checked out (the
idle queue is empty); `close` kills and disowns it. -/
theorem C10_witness :
    (ConnectionPool.close ⟨1, false, [7], [], true, 8, []⟩).connAlive 7 = false ∧
    7 ∉ (ConnectionPool.close ⟨1, false, [7], [], true, 8, []⟩).pool :=
  (C10_thm ⟨1, false, [7], [], true, 8, []⟩).2.2.2 7 (by simp)

/-- Closing a connection always leaves the socket released. -/
theorem Connection.close_socket (c : Connection) : c.close.socket = none := by
  cases h : c.socket <;> simp [Connection.close, Connection.isConnected, h]

/-- Closing a connection never touches the msgid counter. -/
theorem Connection.close_nextMsgid (c : Connection) : c.close.nextMsgid = c.nextMsgid := by
  unfold Connection.close
  split <;> rfl

/-- A closed connection reports itself disconnected. -/
theorem Connection.close_isConnected (c : Connection) : c.close.isConnected = false := by
  simp [Connection.isConnected, Connection.close_socket]

/-- `connect` never touches the msgid counter. -/
theorem connectOp_nextMsgid (c : Connection) (outcome : Except SockErr Nat) :
    (c.connectOp outcome).1.nextMsgid = c.nextMsgid := by
  unfold Connection.connectOp
  split
  · rfl
  · cases outcome with
    | ok h => rfl
    | error e => cases e <;> rfl

/-- `_write_message` never touches the msgid counter. -/
theorem writeMessage_nextMsgid (c : Connection) (p : Except String Nat)
    (sends : List (Except SockErr Nat)) (w : WriteOut)
    (h : c.writeMessage p sends = some w) : w.conn.nextMsgid = c.nextMsgid := by
  unfold Connection.writeMessage at h
  cases p with
  | error e =>
    simp only [Option.some.injEq] at h
    subst h
    rfl
  | ok len =>
    dsimp only at h
    cases hs : sendLoop len 0 sends with
    | none => rw [hs] at h; simp at h
    | some pr =>
      obtain ⟨sent, oe⟩ := pr
      rw [hs] at h
      cases oe with
      | none =>
        simp only [Option.some.injEq] at h
        subst h
        rfl
      | some e =>
        simp only [Option.some.injEq] at h
        subst h
        exact Connection.close_nextMsgid c

/-- `_read_message` never touches the msgid counter. -/
theorem readMessage_nextMsgid (c : Connection) (recvs : List (Except SockErr (List MVal)))
    (c2 : Connection) (r : Except RpcErr MVal)
    (h : c.readMessage recvs = some (c2, r)) : c2.nextMsgid = c.nextMsgid := by
  unfold Connection.readMessage at h
  cases hr : readLoop recvs with
  | none => rw [hr] at h; simp at h
  | some res =>
    rw [hr] at h
    cases res with
    | ok m =>
      simp only [Option.some.injEq, Prod.mk.injEq] at h
      rw [← h.1]
    | error e =>
      simp only [Option.some.injEq, Prod.mk.injEq] at h
      rw [← h.1]
      exact Connection.close_nextMsgid c

/-- The body of `call` after msgid allocation reports exactly that msgid and
leaves the counter where the allocation put it. -/
theorem callAux_shape (c : Connection) (msgid : Nat) (o : CallOracle) (out : CallOut)
    (h : Connection.callAux c msgid o = some out) :
    out.msgidUsed = some msgid ∧ out.conn.nextMsgid = c.nextMsgid := by
  unfold Connection.callAux at h
  cases hw : c.writeMessage o.packResult o.sends with
  | none => rw [hw] at h; simp at h
  | some w =>
    rw [hw] at h
    dsimp only at h
    have hwn := writeMessage_nextMsgid c o.packResult o.sends w hw
    cases hr : w.result with
    | error e =>
      rw [hr] at h
      dsimp only at h
      simp only [Option.some.injEq] at h
      subst h
      exact ⟨rfl, hwn⟩
    | ok u =>
      rw [hr] at h
      dsimp only at h
      cases hm : w.conn.readMessage o.recvs with
      | none => rw [hm] at h; simp at h
      | some pr =>
        obtain ⟨c2, res⟩ := pr
        have hc2 := readMessage_nextMsgid w.conn o.recvs c2 res hm
        cases res with
        | error e =>
          rw [hm] at h
          dsimp only at h
          simp only [Option.some.injEq] at h
          subst h
          exact ⟨rfl, hc2.trans hwn⟩
        | ok resp =>
          rw [hm] at h
          dsimp only at h
          simp only [Option.some.injEq] at h
          subst h
          exact ⟨rfl, hc2.trans hwn⟩

/-- A returning `call` either allocated exactly `old counter + 1` as its
msgid (leaving the counter there), or raised Not connected before any
allocation, leaving the connection untouched. -/
theorem call_shape (c : Connection) (o : CallOracle) (out : CallOut)
    (h : c.call o = some out) :
    (out.msgidUsed = some (c.nextMsgid + 1) ∧ out.conn.nextMsgid = c.nextMsgid + 1) ∨
    (out.msgidUsed = none ∧ out.conn = c) := by
  unfold Connection.call at h
  by_cases hc : c.isConnected = true
  · rw [if_pos hc] at h
    left
    have := callAux_shape { c with nextMsgid := c.nextMsgid + 1 } (c.nextMsgid + 1) o out h
    exact ⟨this.1, this.2⟩
  · rw [if_neg hc] at h
    right
    simp only [Option.some.injEq] at h
    subst h
    exact ⟨rfl, rfl⟩

/-- Along any operation trace the collected msgids are exactly the
consecutive integers from one past the starting counter up to the final
counter. -/
theorem runConn_msgids (ops : List ConnOp) : ∀ c : Connection,
    c.nextMsgid ≤ (runConn c ops).1.nextMsgid ∧
    (runConn c ops).2 =
      List.range' (c.nextMsgid + 1) ((runConn c ops).1.nextMsgid - c.nextMsgid) := by
  induction ops with
  | nil =>
    intro c
    exact ⟨Nat.le_refl _, by simp [runConn]⟩
  | cons op rest ih =>
    intro c
    cases op with
    | connect outcome =>
      have hpres := connectOp_nextMsgid c outcome
      have hih := ih (c.connectOp outcome).1
      simp only [runConn]
      rw [hpres] at hih
      exact hih
    | close =>
      have hpres := Connection.close_nextMsgid c
      have hih := ih c.close
      simp only [runConn]
      rw [hpres] at hih
      exact hih
    | call o =>
      simp only [runConn]
      cases hc : c.call o with
      | none =>
        dsimp only
        refine ⟨by omega, ?_⟩
        have h1 : c.nextMsgid + 1 - c.nextMsgid = 1 := by omega
        rw [h1]
        rfl
      | some out =>
        dsimp only
        rcases call_shape c o out hc with ⟨hm, hn⟩ | ⟨hm, hn⟩
        · obtain ⟨hle, hids⟩ := ih out.conn
          refine ⟨by omega, ?_⟩
          rw [hm]
          simp only [Option.toList_some, List.singleton_append]
          rw [hids, hn]
          have harith : (runConn out.conn rest).1.nextMsgid - c.nextMsgid
              = ((runConn out.conn rest).1.nextMsgid - (c.nextMsgid + 1)) + 1 := by omega
          rw [harith, List.range'_succ]
        · obtain ⟨hle, hids⟩ := ih c
          rw [hn, hm]
          simp only [Option.toList_none, List.nil_append]
          exact ⟨hle, hids⟩

/-- C6: starting from a freshly constructed connection, along any trace of
`connect`, `close` and `call` operations (including failed calls and
disconnect/reconnect cycles) the msgids allocated by the calls, in send
order, are exactly `1, 2, 3, ...` up to the final counter value: strictly
increasing, pairwise distinct, starting at 1, never reset or reused. -/
theorem C6_thm (ops : List ConnOp) :
    (runConn Connection.initial ops).2 =
      List.range' 1 ((runConn Connection.initial ops).1.nextMsgid) ∧
    List.Pairwise (· < ·) (runConn Connection.initial ops).2 ∧
    (runConn Connection.initial ops).2.Nodup := by
  obtain ⟨hle, hids⟩ := runConn_msgids ops Connection.initial
  have hids2 : (runConn Connection.initial ops).2 =
      List.range' 1 ((runConn Connection.initial ops).1.nextMsgid) := by
    simpa using hids
  have hplt : List.Pairwise (· < ·) (runConn Connection.initial ops).2 := by
    rw [hids2]
    exact List.pairwise_lt_range' _ _
  exact ⟨hids2, hplt, hplt.imp Nat.ne_of_lt⟩

/-- C7: if a socket failure or timeout occurs during the send loop of the
request or during the receive loop of the response, `call` closes the
connection (`is_connected` becomes false) and then propagates the error,
mapped to `ConnectionTimeout` for `socket.timeout` and `ConnectionError`
for any other socket error (`sockErrToRpc`). -/
theorem C7_thm (c : Connection) (o : CallOracle) (len sent : Nat) (e : SockErr)
    (hc : c.isConnected = true) (hp : o.packResult = .ok len)
    (hfail : sendLoop len 0 o.sends = some (sent, some e) ∨
      (sendLoop len 0 o.sends = some (sent, none) ∧ readLoop o.recvs = some (.error e))) :
    (c.call o).map (fun out => out.conn.isConnected) = some false ∧
    (c.call o).map (fun out => out.result) = some (.error (sockErrToRpc e)) := by
  unfold Connection.call Connection.callAux Connection.writeMessage Connection.readMessage
  rw [if_pos hc, hp]
  dsimp only
  rcases hfail with hs | ⟨hs, hr⟩
  · rw [hs]
    dsimp only
    simp [Connection.close_isConnected]
  · rw [hs]
    dsimp only
    rw [hr]
    dsimp only
    simp [Connection.close_isConnected]

/-- C7 witness: a connected connection whose first `socket.send` raises
`socket.timeout`. -/
theorem C7_witness :
    ((Connection.call ⟨some 0, 0⟩ ⟨.ok 5, [.error (.timeout "t")], []⟩).map
        (fun out => out.conn.isConnected) = some false) ∧
    ((Connection.call ⟨some 0, 0⟩ ⟨.ok 5, [.error (.timeout "t")], []⟩).map
        (fun out => out.result) = some (.error (.connectionTimeout "t"))) :=
  C7_thm ⟨some 0, 0⟩ ⟨.ok 5, [.error (.timeout "t")], []⟩ 5 0 (.timeout "t") rfl rfl
    (Or.inl rfl)

/-- C8: when `call` decodes a well-formed 4-field response whose msgid
equals the allocated one, a non-null error field makes it raise
`ResponseError` carrying exactly that error value — whatever the result
field holds, it is ignored — and a null error field makes it return the
result field. -/
theorem C8_thm (c : Connection) (o : CallOracle) (len sent : Nat)
    (t err res : MVal)
    (hc : c.isConnected = true) (hp : o.packResult = .ok len)
    (hsend : sendLoop len 0 o.sends = some (sent, none))
    (hrecv : readLoop o.recvs =
      some (.ok (.arr [t, .int ((c.nextMsgid + 1 : Nat) : Int), err, res]))) :
    (c.call o).map (fun out => out.result) =
      some (if err.isNil then Except.ok res else .error (.responseError err)) := by
  unfold Connection.call Connection.callAux Connection.writeMessage Connection.readMessage
  rw [if_pos hc, hp]
  dsimp only
  rw [hsend]
  dsimp only
  rw [hrecv]
  dsimp only
  unfold processResponse unpack4
  dsimp only
  simp only [MVal.eqInt, beq_self_eq_true, Bool.not_true, Bool.false_eq_true, if_false]
  cases hn : err.isNil <;> simp [hn]

/-- C8 witness: a call answered by `[1, 1, "boom", 42]` — matching msgid,
non-null error — raises `ResponseError "boom"` and ignores the result 42. -/
theorem C8_witness :
    (Connection.call ⟨some 0, 0⟩ ⟨.ok 3, [.ok 3],
        [.ok [.arr [.int 1, .int 1, .str "boom", .int 42]]]⟩).map
      (fun out => out.result)
      = some (.error (.responseError (.str "boom"))) :=
  C8_thm ⟨some 0, 0⟩ ⟨.ok 3, [.ok 3], [.ok [.arr [.int 1, .int 1, .str "boom", .int 42]]]⟩
    3 3 (.int 1) (.str "boom") (.int 42) rfl rfl rfl rfl

/-- C9: when packing the request raises, `call` on a connected connection
propagates `SerializationError` with zero bytes sent, the socket untouched
(still connected), and exactly the msgid counter advanced by one. -/
theorem C9_thm (c : Connection) (o : CallOracle) (msg : String)
    (hc : c.isConnected = true) (hp : o.packResult = .error msg) :
    c.call o = some ⟨{ c with nextMsgid := c.nextMsgid + 1 }, 0, some (c.nextMsgid + 1),
      .error (.serializationError ("Serialization failed: " ++ msg))⟩ ∧
    ({ c with nextMsgid := c.nextMsgid + 1 } : Connection).isConnected = true := by
  constructor
  · unfold Connection.call Connection.callAux Connection.writeMessage
    rw [if_pos hc, hp]
  · simpa [Connection.isConnected] using hc

/-- C9 witness: a connected connection whose packer raises on the request
payload. -/
theorem C9_witness :
    Connection.call ⟨some 3, 5⟩ ⟨.error "bad", [], []⟩ =
      some ⟨⟨some 3, 6⟩, 0, some 6,
        .error (.serializationError "Serialization failed: bad")⟩ ∧
    Connection.isConnected ⟨some 3, 6⟩ = true :=
  C9_thm ⟨some 3, 5⟩ ⟨.error "bad", [], []⟩ "bad" rfl rfl
